import Mathlib

/-!
Shallow embedding of the meme-alert-bot streaming pipeline
(market watchlist, safety gates, sliding windows, alert evaluator)
together with proofs about the properties its specification states.

Numeric values that the TypeScript source handles as JS numbers are
modelled as exact rationals; chain RPC and HTTP responses are modelled
as explicit oracle records so that every function stays executable.
-/

set_option autoImplicit false

namespace MemeAlert

/-- Lowercase normalisation used by the source via
`String.prototype.toLowerCase` (spelt over the character list so that it
reduces inside the kernel). -/
def lower (s : String) : String := String.mk (s.data.map Char.toLower)

/-- `Math.max` on rationals, spelt as an `if` so it reduces in the kernel. -/
def rmax (a b : ℚ) : ℚ := if a ≤ b then b else a

/-- `Math.min` on rationals, spelt as an `if` so it reduces in the kernel. -/
def rmin (a b : ℚ) : ℚ := if a ≤ b then a else b

/-- Chain label, `"BSC" | "ETH"` in the source. -/
inductive Chain | BSC | ETH
deriving DecidableEq, Repr

/-- Market type, `"v2" | "v3"` in the source. -/
inductive MType | v2 | v3
deriving DecidableEq, Repr

/-- Token / pair addresses are hex strings in the source. -/
abbrev Addr := String

def chainLabel : Chain → String
  | .BSC => "BSC"
  | .ETH => "ETH"

def typeLabel : MType → String
  | .v2 => "v2"
  | .v3 => "v3"

/-- Base-token tables of `chains/dexAddresses.ts` (symbol, mainnet address). -/
def baseTokenTable : Chain → List (String × Addr)
  | .BSC =>
    [("WBNB", "0xBB4CdB9CBd36B01bD1cBaEBF2De08d9173bc095c"),
     ("USDT", "0x55d398326f99059fF775485246999027B3197955"),
     ("BUSD", "0xe9e7cea3dedca5984780bafc599bd69add087d56"),
     ("USDC", "0x8ac76a51cc950d9822d68b83fe1ad97b32cd580d")]
  | .ETH =>
    [("WETH", "0xC02aaA39b223FE8D0A0e5C4F27eAD9083C756Cc2"),
     ("USDT", "0xdAC17F958D2ee523a2206206994597C13D831ec7"),
     ("USDC", "0xA0b86991c6218b36c1d19D4a2e9Eb0cE3606eB48"),
     ("DAI", "0x6B175474E89094C44Da98b954EedeAC495271d0F")]

/-- `isBaseToken` of `price/baseQuotes.ts`: membership in the per-chain
base-token set, comparing lowercased addresses. -/
def isBaseToken (c : Chain) (a : Addr) : Bool :=
  ((baseTokenTable c).map Prod.snd).any (fun x => lower x == lower a)

/-- Symbol lookup in a chain's base-token record (`base.USDT` etc.). -/
def stableLookup (c : Chain) (sym : String) : Option Addr :=
  ((baseTokenTable c).find? (·.1 = sym)).map (·.2)

/-- The `isStable` test of `getBaseTokenUsd` in `price/baseQuotes.ts`:
the lowercased address equals the chain's USDT, USDC, BUSD or DAI entry
(absent entries are falsy). -/
def isStableToken (c : Chain) (a : Addr) : Bool :=
  let addr := lower a
  (match stableLookup c "USDT" with
   | some t => addr == lower t
   | none => false)
  || (match stableLookup c "USDC" with
      | some t => addr == lower t
      | none => false)
  || (match stableLookup c "BUSD" with
      | some t => addr == lower t
      | none => false)
  || (match stableLookup c "DAI" with
      | some t => addr == lower t
      | none => false)

/-- `getBaseTokenUsd` of `price/baseQuotes.ts`: prefer the aggregator quote
(`fetchTokenUsdViaDexScreener`, an oracle that may be unavailable), fall
back to 1 USD for the stablecoins, otherwise no quote. -/
def getBaseTokenUsd (c : Chain) (api : Addr → Option ℚ) (a : Addr) :
    Option ℚ :=
  match api a with
  | some v => some v
  | none => if isStableToken c a then some 1 else none

/-- Strategy thresholds of `config.ts` (env-overridable; defaults below). -/
structure Strategy where
  minLiqUsd : ℚ
  buyVol1mUsd : ℚ
  buyTxs1m : ℕ
  volumeMultiplier : ℚ
  fdvMultiplier : ℚ
  whaleSingleBuyUsd : ℚ
  whaleLiqRatio : ℚ
  maxTaxPct : ℚ
  maxActiveMarkets : ℕ
deriving DecidableEq, Repr

/-- Documented defaults of `STRATEGY` (config.ts plus README-documented keys). -/
def defaultStrategy : Strategy :=
  { minLiqUsd := 5000
    buyVol1mUsd := 15000
    buyTxs1m := 8
    volumeMultiplier := 5
    fdvMultiplier := 3
    whaleSingleBuyUsd := 5000
    whaleLiqRatio := 3 / 100
    maxTaxPct := 1 / 5
    maxActiveMarkets := 600 }

/-! ## Watchlist (`state/watchlist.ts`) -/

/-- `WatchStatus` of `state/watchlist.ts`. -/
inductive WStatus | pending | active | rejected
deriving DecidableEq, Repr

/-- The metadata bag `WatchEntry.meta`. -/
structure WMeta where
  lastMintUsd : Option ℚ
  baseTokenHint : Option Addr
  liquidityUsd : Option ℚ
deriving DecidableEq, Repr

/-- The empty metadata bag `{}`. -/
def WMeta.empty : WMeta := ⟨none, none, none⟩

/-- A partial metadata object (`Partial<WatchEntry["meta"]>`): a field that is
`none` is absent from the patch, `some v` is present with value `v`. -/
structure WMetaPatch where
  lastMintUsd : Option (Option ℚ)
  baseTokenHint : Option (Option Addr)
  liquidityUsd : Option (Option ℚ)
deriving DecidableEq, Repr

/-- The empty patch `{}`. -/
def WMetaPatch.empty : WMetaPatch := ⟨none, none, none⟩

/-- Object spread `{ ...meta, ...patch }`: present patch fields override. -/
def applyMetaPatch (m : WMeta) (p : WMetaPatch) : WMeta :=
  { lastMintUsd := p.lastMintUsd.getD m.lastMintUsd
    baseTokenHint := p.baseTokenHint.getD m.baseTokenHint
    liquidityUsd := p.liquidityUsd.getD m.liquidityUsd }

/-- `WatchEntry` of `state/watchlist.ts`. -/
structure WEntry where
  key : String
  chain : Chain
  mtype : MType
  address : Addr
  token0 : Addr
  token1 : Addr
  fee : Option ℕ
  firstSeen : ℕ
  lastUpdated : ℕ
  status : WStatus
  reason : Option String
  meta : WMeta
deriving DecidableEq, Repr

/-- The in-memory `KVStore<WatchEntry>` backing the watchlist: an insertion
ordered association list with JS `Map` set semantics. -/
abbrev WStore := List (String × WEntry)

/-- `Map.get`. -/
def wget : WStore → String → Option WEntry
  | [], _ => none
  | (k', v) :: rest, k => if k' = k then some v else wget rest k

/-- `Map.set`: replace in place, else append. -/
def wset : WStore → String → WEntry → WStore
  | [], k, v => [(k, v)]
  | (k', v') :: rest, k, v =>
    if k' = k then (k, v) :: rest else (k', v') :: wset rest k v

/-- `marketKey` of `state/watchlist.ts`. -/
def marketKey (c : Chain) (t : MType) (a : Addr) : String :=
  chainLabel c ++ ":" ++ typeLabel t ++ ":" ++ lower a

/-- The parameters `enqueueNew` receives. -/
structure NewParams where
  chain : Chain
  mtype : MType
  address : Addr
  token0 : Addr
  token1 : Addr
  fee : Option ℕ
deriving DecidableEq, Repr

/-- `WatchlistStore.enqueueNew`; `now` stands for `Date.now()`. -/
def enqueueNew (w : WStore) (now : ℕ) (p : NewParams) : WStore :=
  let k := marketKey p.chain p.mtype p.address
  if (wget w k).isSome then w
  else
    wset w k
      { key := k
        chain := p.chain
        mtype := p.mtype
        address := p.address
        token0 := p.token0
        token1 := p.token1
        fee := p.fee
        firstSeen := now
        lastUpdated := now
        status := .pending
        reason := none
        meta := WMeta.empty }

/-- `WatchlistStore.activate`. -/
def activate (w : WStore) (now : ℕ) (k : String) (patch : Option WMetaPatch) :
    WStore :=
  match wget w k with
  | none => w
  | some e =>
    wset w k
      { e with
        status := .active
        lastUpdated := now
        meta := applyMetaPatch e.meta (patch.getD WMetaPatch.empty) }

/-- `WatchlistStore.reject`. -/
def reject (w : WStore) (now : ℕ) (k : String) (reason : String) : WStore :=
  match wget w k with
  | none => w
  | some e =>
    wset w k { e with status := .rejected, reason := some reason, lastUpdated := now }

/-- `WatchlistStore.patchMeta`. -/
def patchMeta (w : WStore) (now : ℕ) (k : String) (patch : WMetaPatch) : WStore :=
  match wget w k with
  | none => w
  | some e =>
    wset w k { e with meta := applyMetaPatch e.meta patch, lastUpdated := now }

/-- One mutating watchlist operation, for stating transition invariants. -/
inductive WOp
  | enq (now : ℕ) (p : NewParams)
  | act (now : ℕ) (k : String) (patch : Option WMetaPatch)
  | rej (now : ℕ) (k : String) (reason : String)
  | pat (now : ℕ) (k : String) (patch : WMetaPatch)
deriving DecidableEq, Repr

/-- Interpret one watchlist operation. -/
def applyOp (w : WStore) : WOp → WStore
  | .enq now p => enqueueNew w now p
  | .act now k patch => activate w now k patch
  | .rej now k reason => reject w now k reason
  | .pat now k patch => patchMeta w now k patch

/-! ## Sellability (`safety/sellability.ts`) -/

/-- Oracle environment of the V2 sellability check: the aggregator price
lookup `fetchTokenUsdViaDexScreener` (which `getBaseTokenUsd` composes with
the stablecoin fallback; `none` = unavailable), the token-decimals reader
(`getTokenDecimals`, fallback 18 already folded in) and the router static
call `getAmountsOut(amountIn, path)`; `none` stands for a revert. -/
structure SellEnv where
  fromApi : Addr → Option ℚ
  decimals : Addr → ℕ
  amountsOut : ℕ → List Addr → Option (List ℕ)

/-- Result record of the sellability checks. -/
structure SellResult where
  ok : Bool
  note : String
  path : Option (List Addr)
deriving DecidableEq, Repr

/-- The symbol order `["WBNB", "WETH", "USDT", "USDC", "BUSD", "DAI"]` that
`pickCommonBases` prefers. -/
def commonBaseOrder : List String :=
  ["WBNB", "WETH", "USDT", "USDC", "BUSD", "DAI"]

/-- `pickCommonBases`: ordered preferred symbols first, then remaining table
values, without duplicates. -/
def pickCommonBases (c : Chain) : List Addr :=
  let base := baseTokenTable c
  let got := commonBaseOrder.filterMap (fun k => (base.find? (·.1 = k)).map (·.2))
  let rest := (base.map (·.2)).filter (fun v => ¬ got.contains v)
  got ++ rest

/-- `pickBase`: `USDT ?? USDC ?? WBNB ?? WETH ?? first value`. -/
def pickBase (c : Chain) : Addr :=
  let base := baseTokenTable c
  let find := fun (s : String) => (base.find? (·.1 = s)).map (·.2)
  ((find "USDT" <|> find "USDC" <|> find "WBNB" <|> find "WETH").getD
    ((base.map (·.2)).headD ""))

/-- Check that a static quote came back with enough hops and a strictly
positive final amount (`out.length >= n && out[out.length-1] > 0n`). -/
def posOut (n : ℕ) (out? : Option (List ℕ)) : Bool :=
  match out? with
  | some out => n ≤ out.length && 0 < out.getLastD 0
  | none => false

/-- The probe amount of `checkSellabilityV2`:
`exponent = dec > 6 ? dec - 6 : 0; baseAmt = 10n ** exponent || 1n`
(the `|| 1n` fallback never fires since `10^e ≥ 1`). -/
def sellBaseAmt (env : SellEnv) (token : Addr) : ℕ :=
  10 ^ (if 6 < env.decimals token then env.decimals token - 6 else 0)

/-- The 1-hop probe loop of `checkSellabilityV2`: first base whose
`token → base` static quote is positive. -/
def sellHop1 (chain : Chain) (env : SellEnv) (token : Addr) :
    Option (List Addr) :=
  (pickCommonBases chain).findSome? fun base =>
    let path := [token, base]
    if posOut 2 (env.amountsOut (sellBaseAmt env token) path) then some path
    else none

/-- The 2-hop probe loop of `checkSellabilityV2`: first `token → mid → dst`
whose static quote is positive, skipping `mid = token` and `dst = mid`. -/
def sellHop2 (chain : Chain) (env : SellEnv) (token : Addr) :
    Option (List Addr) :=
  (pickCommonBases chain).findSome? fun mid =>
    if lower mid = lower token then none
    else (pickCommonBases chain).findSome? fun dst =>
      if dst = mid then none
      else
        let path := [token, mid, dst]
        if posOut 3 (env.amountsOut (sellBaseAmt env token) path) then some path
        else none

/-- `checkSellabilityV2` (multi-path variant of `safety/sellability.ts`):
base-token early pass, sanity base USD quote, then 1-hop `token → base` and
2-hop `token → mid → dst` static probes over `pickCommonBases`. -/
def checkSellabilityV2 (chain : Chain) (env : SellEnv) (token : Addr) :
    SellResult :=
  if isBaseToken chain token then ⟨true, "token is base asset", none⟩
  else
    match getBaseTokenUsd chain env.fromApi (pickBase chain) with
    | none => ⟨false, "no base USD quote", none⟩
    | some _ =>
      match sellHop1 chain env token with
      | some path => ⟨true, "V2 static ok: 1 hop", some path⟩
      | none =>
        match sellHop2 chain env token with
        | some path => ⟨true, "V2 static ok: 2 hops", some path⟩
        | none => ⟨false, "no static route found (V2)", none⟩

/-- The probe amount as the specification words it:
`10^max(0, decimals−6)`, floored at 1. -/
def specProbeAmt (dec : ℕ) : ℕ := max 1 (10 ^ (max 0 ((dec : ℤ) - 6)).toNat)

/-- All 1-hop candidate paths `token → base` in priority order. -/
def oneHopPaths (chain : Chain) (token : Addr) : List (List Addr) :=
  (pickCommonBases chain).map (fun b => [token, b])

/-- All 2-hop candidate paths `token → mid → dst` in priority order. -/
def twoHopPaths (chain : Chain) (token : Addr) : List (List Addr) :=
  ((pickCommonBases chain).filter (fun mid => lower mid ≠ lower token)).flatMap
    (fun mid => ((pickCommonBases chain).filter (· ≠ mid)).map
      (fun dst => [token, mid, dst]))

/-- A candidate path yields a strictly positive quote for the probe amount. -/
def pathPositive (env : SellEnv) (amt : ℕ) (p : List Addr) : Prop :=
  ∃ out, env.amountsOut amt p = some out ∧ p.length ≤ out.length ∧
    0 < out.getLastD 0

/-! ## Gate pipeline (`rules/gates.ts` and `runGates` of `index.ts`) -/

/-- Result of `hasMinLiquidityV2` / `hasMinLiquidityV3`, treated as an oracle
(its own RPC/HTTP activity is not consulted by the pipeline logic). -/
structure LiqResult where
  ok : Bool
  usd : Option ℚ
  note : Option String
deriving DecidableEq, Repr

/-- Result of `lpRiskScore`, treated as an oracle. -/
structure LpResult where
  score : ℕ
  notes : List String
deriving DecidableEq, Repr

/-- Oracle environment of the gate pipeline: the `eth_getCode`-based
`hasOnchainCode` probe, the minimum-liquidity and LP-risk results, the V2
sellability environment, the V3 sellability result, and the tax averages
returned by `getAvgTaxApprox`. -/
structure PipelineEnv where
  hasCode : Addr → Bool
  liq : LiqResult
  sellEnv : SellEnv
  sellV3 : SellResult
  lp : LpResult
  taxBuy : Option ℚ
  taxSell : Option ℚ

/-- Return record of `passSafetyGates`. -/
structure GateOutcome where
  ok : Bool
  reasons : List String
  liquidityUsd : Option ℚ
  taxBuy : Option ℚ
  taxSell : Option ℚ
  lpNotes : List String
deriving DecidableEq, Repr

/-- `passSafetyGates` of `rules/gates.ts` (bytecode variant): bytecode
presence first with early return, then minimum liquidity, sellability,
LP-risk score and tax averages, accumulating reasons. -/
def passSafetyGates (S : Strategy) (env : PipelineEnv) (chain : Chain)
    (mtype : MType) (addr token0 token1 : Addr) : GateOutcome :=
  let addrHasCode := env.hasCode addr
  let t0HasCode := env.hasCode token0
  let t1HasCode := env.hasCode token1
  let codeReasons :=
    (if addrHasCode then [] else ["pair/pool 无合约代码"]) ++
    (if !t0HasCode || !t1HasCode then
      ["token 合约缺失: " ++ String.intercalate "/"
        ((if t0HasCode then [] else ["token0"]) ++
         (if t1HasCode then [] else ["token1"]))]
     else [])
  if !(addrHasCode && t0HasCode && t1HasCode) then
    { ok := false
      reasons := codeReasons
      liquidityUsd := none
      taxBuy := none
      taxSell := none
      lpNotes := [] }
  else
    let liq := env.liq
    let ok1 := liq.ok
    let reasons1 :=
      if liq.ok then [] else ["minLiquidity: " ++ liq.note.getD "fail"]
    let sellStep : Bool × List String :=
      if ok1 then
        match mtype with
        | .v2 =>
          let sellToken :=
            if isBaseToken chain token0 && !isBaseToken chain token1 then token1
            else token0
          let sell := checkSellabilityV2 chain env.sellEnv sellToken
          if sell.ok then (ok1, reasons1)
          else (false, reasons1 ++ ["sellability: " ++ sell.note])
        | .v3 =>
          let sell := env.sellV3
          if sell.ok then (ok1, reasons1)
          else (false, reasons1 ++ ["sellability v3: " ++ sell.note])
      else (ok1, reasons1)
    let ok2 := sellStep.1
    let lpStep : Bool × List String × List String :=
      if ok2 then
        let lp := env.lp
        let rs := sellStep.2 ++ ["lpRisk: " ++ String.intercalate ", " lp.notes]
        if 2 ≤ lp.score then (false, rs ++ ["lpRisk score too high"], lp.notes)
        else (ok2, rs, lp.notes)
      else (ok2, sellStep.2, [])
    let ok3 := lpStep.1
    let taxSellStep : Bool × List String :=
      match env.taxSell with
      | some t =>
        if S.maxTaxPct < t then (false, lpStep.2.1 ++ ["sellTax too high"])
        else (ok3, lpStep.2.1)
      | none => (ok3, lpStep.2.1)
    let okT :=
      match env.taxBuy with
      | some t => if S.maxTaxPct < t then false else taxSellStep.1
      | none => taxSellStep.1
    let reasonsT :=
      match env.taxBuy with
      | some t =>
        if S.maxTaxPct < t then taxSellStep.2 ++ ["buyTax too high"]
        else taxSellStep.2
      | none => taxSellStep.2
    { ok := okT
      reasons := if okT then ["ok"] else reasonsT
      liquidityUsd := liq.usd
      taxBuy := env.taxBuy
      taxSell := env.taxSell
      lpNotes := lpStep.2.2 }

/-- `runGates` of `index.ts` (the routine that performs the watchlist
transitions): minimum liquidity, then sellability (V2 on `token0` / V3
oracle), then LP-risk, rejecting on the first failure and activating with
the observed liquidity otherwise.  It consults neither `hasOnchainCode`
nor the tax averages. -/
def runGates (_S : Strategy) (env : PipelineEnv) (chain : Chain) (mtype : MType)
    (addr token0 _token1 : Addr) (now : ℕ) (w : WStore) : WStore :=
  let key := marketKey chain mtype addr
  if !env.liq.ok then
    reject w now key ("minLiquidity fail: " ++ env.liq.note.getD "")
  else
    let sellStep : Bool × String :=
      match mtype with
      | .v2 =>
        let sell := checkSellabilityV2 chain env.sellEnv token0
        (sell.ok, "sellability fail: " ++ sell.note)
      | .v3 =>
        (env.sellV3.ok, "sellability v3 fail: " ++ env.sellV3.note)
    if !sellStep.1 then reject w now key sellStep.2
    else if 2 ≤ env.lp.score then
      reject w now key ("lpRisk high: " ++ String.intercalate "," env.lp.notes)
    else
      activate w now key
        (some { lastMintUsd := none
                baseTokenHint := none
                liquidityUsd := some env.liq.usd })

/-! ## Sliding windows (`state/windows.ts`) -/

/-- `TradeEvent` of `state/windows.ts`. -/
structure TradeEvent where
  ts : ℕ
  usd : ℚ
  isBuy : Bool
  buyer : Option Addr
deriving DecidableEq, Repr

/-- Aggregate accumulator of `SlidingWindow.aggregateWithin`; `buyers` models
the `Set` of lowercased buyer addresses (`uniqueBuyers` is its size). -/
structure WinAgg where
  totalUsd : ℚ
  buyUsd : ℚ
  buyTxs : ℕ
  buyers : List Addr
deriving DecidableEq, Repr

/-- The zeroed accumulator. -/
def WinAgg.empty : WinAgg := ⟨0, 0, 0, []⟩

/-- `Set.add` on the buyer set. -/
def addBuyer (s : List Addr) (b : Addr) : List Addr :=
  if b ∈ s then s else s ++ [b]

/-- One loop iteration of `aggregateWithin` over an in-window event. -/
def aggStep (a : WinAgg) (e : TradeEvent) : WinAgg :=
  { totalUsd := a.totalUsd + e.usd
    buyUsd := if e.isBuy then a.buyUsd + e.usd else a.buyUsd
    buyTxs := if e.isBuy then a.buyTxs + 1 else a.buyTxs
    buyers :=
      if e.isBuy then
        match e.buyer with
        | some b => addBuyer a.buyers (lower b)
        | none => a.buyers
      else a.buyers }

/-- The backwards walk of `aggregateWithin`: events are consumed newest
first and the walk breaks at the first event older than `start`. -/
def aggLoop (start : ℕ) (a : WinAgg) : List TradeEvent → WinAgg
  | [] => a
  | e :: rest => if e.ts < start then a else aggLoop start (aggStep a e) rest

/-- `SlidingWindow.aggregateWithin(ms, now)` over an oldest-first event
list. -/
def aggregateWithin (ms now : ℕ) (evs : List TradeEvent) : WinAgg :=
  aggLoop (now - ms) WinAgg.empty evs.reverse

/-- `SlidingWindow.prune`: shift events below `now − keepMs` off the head. -/
def prune (keepMs now : ℕ) (evs : List TradeEvent) : List TradeEvent :=
  evs.dropWhile (fun e => e.ts < now - keepMs)

/-- The retention horizon `keep_ms = 10 min`. -/
def keepMs : ℕ := 600000

/-- `SlidingWindow.oneMinute(now)`: prune then aggregate the last 60 s. -/
def oneMinute (now : ℕ) (evs : List TradeEvent) : WinAgg :=
  aggregateWithin 60000 now (prune keepMs now evs)

/-- `SlidingWindow.tenMinutesTotal(now)`. -/
def tenMinutesTotal (now : ℕ) (evs : List TradeEvent) : ℚ :=
  (aggregateWithin 600000 now (prune keepMs now evs)).totalUsd

/-- `SlidingWindow.baselineAvgPerMin(now) = max(0, total10m − total1m) / 9`. -/
def baselineAvgPerMin (now : ℕ) (evs : List TradeEvent) : ℚ :=
  let total10 := tenMinutesTotal now evs
  let total1 := (oneMinute now evs).totalUsd
  let rest := rmax 0 (total10 - total1)
  rest / 9

/-- `getVolumeMultiplier` of `metrics/velocity.ts`: `none` models the JS
`Infinity` ratio returned when the baseline is ≤ 0. -/
def getVolumeMultiplier (now : ℕ) (evs : List TradeEvent) : Option ℚ :=
  let one := (oneMinute now evs).totalUsd
  let base := baselineAvgPerMin now evs
  if base ≤ 0 then none else some (one / base)

/-! ## Alert evaluator (`rules/alerts.ts`, `evaluateAlerts`) -/

/-- The 1-minute stats consumed by the evaluator (`getOneMinuteBuys`). -/
structure VolStats where
  totalUsd : ℚ
  buyUsd : ℚ
  buyTxs : ℕ
  uniqueBuyers : ℕ
deriving DecidableEq, Repr

/-- Inputs of one `evaluateAlerts` run, after the metric lookups: the
1-minute stats, the volume multiplier (`none` = `Infinity`), the FDV ratio
(`none` = unavailable) and the per-trade parameters. -/
structure AlertIn where
  vol : VolStats
  velR : Option ℚ
  fdvR : Option ℚ
  lastTradeUsd : Option ℚ
  lastTradeIsBuy : Bool
  lastTradeBuyerUsd : Option ℚ
  lastMintUsd : Option ℚ
  liquidityUsd : Option ℚ
deriving DecidableEq, Repr

/-- `AlertLevel` of `rules/alerts.ts`. -/
inductive ALevel | noAlert | normal | strong
deriving DecidableEq, Repr

/-- `hitVel`: `vel.ratio === Infinity || vel.ratio >= VOLUME_MULTIPLIER`. -/
def hitVelOf (S : Strategy) (r : Option ℚ) : Bool :=
  match r with
  | none => true
  | some x => S.volumeMultiplier ≤ x

/-- Result of the evaluator core: graded level, score and the four flags. -/
structure AlertOut where
  level : ALevel
  score : ℕ
  hitBuy : Bool
  hitVel : Bool
  hitFdv : Bool
  hitWhale : Bool
deriving DecidableEq, Repr

/-- The scoring / verdict core of `evaluateAlerts`. -/
def evaluateAlertsCore (S : Strategy) (p : AlertIn) : AlertOut :=
  let hitBuy :=
    decide (S.buyVol1mUsd ≤ p.vol.buyUsd) && decide (S.buyTxs1m ≤ p.vol.buyTxs)
  let hitVel := hitVelOf S p.velR
  let hitFdv :=
    match p.fdvR with
    | none => false
    | some r => S.fdvMultiplier ≤ r
  let whaleR : Option ℚ :=
    if p.lastTradeIsBuy && p.lastTradeUsd.isSome && p.liquidityUsd.isSome &&
        decide (0 < p.liquidityUsd.getD 0) then
      some (p.lastTradeUsd.getD 0 / p.liquidityUsd.getD 0)
    else none
  let hitWhale := p.lastTradeIsBuy &&
    ((match whaleR with
      | some r => decide (S.whaleLiqRatio ≤ r)
      | none => false) ||
     decide (S.whaleSingleBuyUsd ≤ p.lastTradeBuyerUsd.getD 0))
  let score :=
    (if hitBuy then 2 else 0) + (if hitVel then 2 else 0) +
    (if hitFdv then 2 else 0) + (if hitWhale then 3 else 0) +
    (if S.minLiqUsd * (6 / 5) ≤ p.lastMintUsd.getD 0 then 1 else 0)
  let level :=
    if 6 ≤ score ∧ (hitWhale = true ∨ (hitVel = true ∧ hitFdv = true)) then
      ALevel.strong
    else if 3 ≤ score then ALevel.normal
    else ALevel.noAlert
  { level := level
    score := score
    hitBuy := hitBuy
    hitVel := hitVel
    hitFdv := hitFdv
    hitWhale := hitWhale }

/-! ## Tax estimator (`safety/taxEstimator.ts`) -/

/-- Relative mid prices returned by `getV2RelativePrice` /
`getV3RelativePrice`. -/
structure RelPrice where
  p0in1 : ℚ
  p1in0 : ℚ
deriving DecidableEq, Repr

/-- The four `direction` variants of `recordTaxApprox`. -/
inductive TaxDirection | sellToken0 | sellToken1 | buyToken0 | buyToken1
deriving DecidableEq, Repr

/-- Parameters of one `recordTaxApprox` call: the mid-price oracle result
and the decimal-normalised amounts. -/
structure TaxRecParams where
  rel : Option RelPrice
  direction : TaxDirection
  tokenIn : Option ℚ
  baseOut : Option ℚ
  baseIn : Option ℚ
deriving DecidableEq, Repr

/-- A stored `TaxSample`. -/
structure TaxSample where
  ts : ℕ
  buyTax : Option ℚ
  sellTax : Option ℚ
deriving DecidableEq, Repr

/-- The `1e-12` guard of the source. -/
def taxEps : ℚ := 1 / 10 ^ 12

/-- `Math.max(0, Math.min(1, x))`. -/
def clamp01 (x : ℚ) : ℚ := rmax 0 (rmin 1 x)

/-- `recordTaxApprox`: returns the sample it pushes, `none` if nothing is
recorded (missing mid price or missing amounts for the direction). -/
def recordTaxApprox (now : ℕ) (p : TaxRecParams) : Option TaxSample :=
  match p.rel with
  | none => none
  | some rel =>
    match p.direction with
    | .sellToken0 =>
      match p.tokenIn, p.baseOut with
      | some tin, some obs =>
        let mid := rel.p1in0
        let expected := tin * mid
        some ⟨now, none, some (clamp01 (1 - obs / rmax expected taxEps))⟩
      | _, _ => none
    | .sellToken1 =>
      match p.tokenIn, p.baseOut with
      | some tin, some obs =>
        let mid := rel.p0in1
        let expected := tin * mid
        some ⟨now, none, some (clamp01 (1 - obs / rmax expected taxEps))⟩
      | _, _ => none
    | .buyToken0 =>
      match p.baseIn, p.tokenIn with
      | some bin, some obs =>
        let mid := 1 / rel.p1in0
        let expected := bin * mid
        some ⟨now, some (clamp01 (1 - obs / rmax expected taxEps)), none⟩
      | _, _ => none
    | .buyToken1 =>
      match p.baseIn, p.tokenIn with
      | some bin, some obs =>
        let mid := 1 / rel.p0in1
        let expected := bin * mid
        some ⟨now, some (clamp01 (1 - obs / rmax expected taxEps)), none⟩
      | _, _ => none

/-- The direction-appropriate mid price used for the expected output. -/
def taxMid (rel : RelPrice) : TaxDirection → ℚ
  | .sellToken0 => rel.p1in0
  | .sellToken1 => rel.p0in1
  | .buyToken0 => 1 / rel.p1in0
  | .buyToken1 => 1 / rel.p0in1

/-- The input-side amount of a tax observation. -/
def taxInAmt (p : TaxRecParams) : Option ℚ :=
  match p.direction with
  | .sellToken0 | .sellToken1 => p.tokenIn
  | .buyToken0 | .buyToken1 => p.baseIn

/-- The observed (realised) output amount of a tax observation. -/
def taxObsAmt (p : TaxRecParams) : Option ℚ :=
  match p.direction with
  | .sellToken0 | .sellToken1 => p.baseOut
  | .buyToken0 | .buyToken1 => p.tokenIn

/-! ## Ingress slot budget (`index.ts`, `ensureV2Market` / `ensureV3Market`) -/

/-- A discovery candidate (factory event or trending poll hit). -/
structure Candidate where
  chain : Chain
  mtype : MType
  addr : Addr
  token0 : Addr
  token1 : Addr
  fee : Option ℕ
deriving DecidableEq, Repr

/-- Ingress-visible mutable state: the watchlist, the keys for which
`runGates` was launched, and the subscription key set. -/
structure IngressState where
  watch : WStore
  gates : List String
  subs : List String
deriving DecidableEq, Repr

/-- The process start state. -/
def initIngress : IngressState := ⟨[], [], []⟩

/-- `hasCapacity`: `subscriptions.size < STRATEGY.MAX_ACTIVE_MARKETS`. -/
def hasCapacity (maxActive : ℕ) (st : IngressState) : Bool :=
  st.subs.length < maxActive

/-- The watchlist key a candidate registers under. -/
def candKey (c : Candidate) : String :=
  marketKey c.chain c.mtype (lower c.addr)

/-- The registration half of `ensureV2Market` / `ensureV3Market`:
`watchlist.enqueueNew` plus the `runGates` launch, performed only when the
key is new. -/
def registerCandidate (now : ℕ) (st : IngressState) (c : Candidate) :
    IngressState :=
  if (wget st.watch (candKey c)).isSome then st
  else
    { st with
      watch := enqueueNew st.watch now
        ⟨c.chain, c.mtype, lower c.addr, lower c.token0, lower c.token1, c.fee⟩
      gates := candKey c :: st.gates }

/-- The subscription key `` `${chain}:${type}:${pair}` ``. -/
def subKeyOf (c : Candidate) : String :=
  chainLabel c.chain ++ ":" ++ typeLabel c.mtype ++ ":" ++ lower c.addr

/-- `ensureV2Market` / `ensureV3Market` of `index.ts`: register + launch the
gates when the key is new, then start a subscription only when the key is
unsubscribed and the slot budget `MAX_ACTIVE_MARKETS` is not exhausted. -/
def ensureMarket (maxActive now : ℕ) (st : IngressState) (c : Candidate) :
    IngressState :=
  let st1 := registerCandidate now st c
  if subKeyOf c ∈ st1.subs then st1
  else if hasCapacity maxActive st1 then
    { st1 with subs := subKeyOf c :: st1.subs }
  else st1

/-- Run the ingress over a stream of `(now, candidate)` arrivals. -/
def runIngress (maxActive : ℕ) (tr : List (ℕ × Candidate)) : IngressState :=
  tr.foldl (fun st p => ensureMarket maxActive p.1 st p.2) initIngress

/-! ## Concrete instances used to evaluate the definitions -/

/-- A non-base meme-token address. -/
def memeAddr : Addr := "0x00000000000000000000000000000000000000cc"

/-- A pair address. -/
def pairAddr : Addr := "0x00000000000000000000000000000000000000ab"

/-- The WBNB table entry (same casing as `dexAddresses.ts`). -/
def wbnbAddr : Addr := "0xBB4CdB9CBd36B01bD1cBaEBF2De08d9173bc095c"

/-- WBNB lowercased, as the ingress normalises addresses. -/
def wbnbLower : Addr := lower wbnbAddr

/-- Candidate parameters for the watchlist scenarios. -/
def p1ce : NewParams := ⟨.BSC, .v2, pairAddr, wbnbLower, memeAddr, none⟩

/-- The key the candidate registers under. -/
def k1ce : String := marketKey .BSC .v2 pairAddr

/-- Store after `enqueueNew` at time 0. -/
def w1a : WStore := enqueueNew [] 0 p1ce

/-- The entry `enqueueNew` creates. -/
def e1ce : WEntry :=
  { key := k1ce
    chain := .BSC
    mtype := .v2
    address := pairAddr
    token0 := wbnbLower
    token1 := memeAddr
    fee := none
    firstSeen := 0
    lastUpdated := 0
    status := .pending
    reason := none
    meta := WMeta.empty }

/-- The same entry after `reject` at time 3. -/
def e1rej : WEntry :=
  { e1ce with status := .rejected, reason := some "liq", lastUpdated := 3 }

/-- Store after rejecting the entry. -/
def w1b : WStore := reject w1a 3 k1ce "liq"

/-- Store after a later `activate` call on the rejected entry. -/
def w1c : WStore := activate w1b 7 k1ce none

/-- Sellability environment: the aggregator is unavailable (so the sanity
quote goes through the stablecoin fallback) and the 1-hop route
`meme → WBNB` quotes a positive amount. -/
def env3ok : SellEnv :=
  { fromApi := fun _ => none
    decimals := fun _ => 18
    amountsOut := fun amt path =>
      if path = [memeAddr, wbnbAddr] then some [amt, 3000000] else none }

/-- Pipeline environment in which `token1` (the meme token) has no on-chain
code while the remaining probes succeed. -/
def envC2 : PipelineEnv :=
  { hasCode := fun a => !(a == memeAddr)
    liq := ⟨true, some 12000, some "dexscreener liquidity"⟩
    sellEnv := ⟨fun _ => some 1, fun _ => 18, fun _ _ => none⟩
    sellV3 := ⟨true, "", none⟩
    lp := ⟨0, ["base paired"]⟩
    taxBuy := none
    taxSell := none }

/-- Alert-evaluator input with a 4000 USD buy into a 100000 USD pool. -/
def whaleIn : AlertIn :=
  { vol := ⟨0, 0, 0, 0⟩
    velR := some 0
    fdvR := none
    lastTradeUsd := some 4000
    lastTradeIsBuy := true
    lastTradeBuyerUsd := none
    lastMintUsd := none
    liquidityUsd := some 100000 }

/-- Ingress state whose single subscription slot is taken. -/
def stFull : IngressState := ⟨[], [], ["ETH:v2:0x01"]⟩

/-- A fresh candidate arriving while the budget is exhausted. -/
def candW : Candidate := ⟨.BSC, .v2, pairAddr, wbnbLower, memeAddr, none⟩

/-- A short, timestamp-sorted event history for the window queries. -/
def evsW : List TradeEvent :=
  [⟨50000, 10, true, some "0xB1"⟩,
   ⟨650000, 5, false, none⟩,
   ⟨690000, 7, true, some "0xB2"⟩]

/-- Tax-recording parameters: sell 10 target tokens at mid price 3,
receiving 15 base tokens. -/
def taxP : TaxRecParams :=
  { rel := some ⟨2, 3⟩
    direction := .sellToken0
    tokenIn := some 10
    baseOut := some 15
    baseIn := none }

/-- The sample `recordTaxApprox` stores for `taxP` at time 100. -/
def taxS : TaxSample :=
  ⟨100, none, some (clamp01 (1 - 15 / rmax (10 * 3) taxEps))⟩

/-! ## Association-store lemmas -/

theorem rmax_eq_max (a b : ℚ) : rmax a b = max a b := by
  simp [rmax, max_def]

theorem rmin_eq_min (a b : ℚ) : rmin a b = min a b := by
  simp [rmin, min_def]

theorem wget_wset_self (w : WStore) (k : String) (v : WEntry) :
    wget (wset w k v) k = some v := by
  induction w with
  | nil => simp [wset, wget]
  | cons hd tl ih =>
    obtain ⟨k', v'⟩ := hd
    by_cases h : k' = k
    · simp [wset, h, wget]
    · simp [wset, h, wget, ih]

theorem wget_wset_ne (w : WStore) (k k' : String) (v : WEntry) (h : k' ≠ k) :
    wget (wset w k v) k' = wget w k' := by
  have h' : k ≠ k' := Ne.symm h
  induction w with
  | nil => simp [wset, wget, h']
  | cons hd tl ih =>
    obtain ⟨k0, v0⟩ := hd
    by_cases h0 : k0 = k
    · subst h0
      simp [wset, wget, h']
    · simp [wset, wget, h0, ih]

/-- C1 (counterexample): at the store level `activate` overwrites a
`rejected` status: after `enqueueNew`, `reject`, `activate` on the same key
the entry is `active`, so a rejected entry is not terminal under the
watchlist operations. -/
theorem c1_reject_then_activate_flips_status :
    (wget w1b k1ce).map WEntry.status = some WStatus.rejected
    ∧ (wget w1c k1ce).map WEntry.status = some WStatus.active := by
  constructor <;> decide

/-- C1 (amended): for an entry that exists before and after a watchlist
operation, `enqueueNew` and `patchMeta` never change its status, and every
status change is performed by `activate` on that key (making it `active`) or
by `reject` on that key (making it `rejected`); no operation ever moves an
entry back to `pending`. (`activate`/`reject` set the status
unconditionally, so `rejected → active` and `active → rejected` are possible
at the store level, as the counterexample shows.) -/
theorem c1_status_change_only_via_activate_or_reject
    (w : WStore) (op : WOp) (k : String) (e e' : WEntry)
    (h : wget w k = some e) (h' : wget (applyOp w op) k = some e') :
    e'.status = e.status
    ∨ (e'.status = .active ∧ ∃ now patch, op = .act now k patch)
    ∨ (e'.status = .rejected ∧ ∃ now r, op = .rej now k r) := by
  cases op with
  | enq now p =>
    simp only [applyOp, enqueueNew] at h'
    by_cases hk : (wget w (marketKey p.chain p.mtype p.address)).isSome
    · simp only [hk, if_pos] at h'
      left
      rw [h] at h'
      exact (Option.some_inj.mp h').symm ▸ rfl
    · simp only [hk, if_neg, Bool.false_eq_true, reduceIte] at h'
      by_cases hkk : marketKey p.chain p.mtype p.address = k
      · rw [hkk] at hk
        rw [h] at hk
        simp at hk
      · rw [wget_wset_ne _ _ _ _ (fun hh => hkk hh.symm)] at h'
        left
        rw [h] at h'
        exact (Option.some_inj.mp h').symm ▸ rfl
  | act now k0 patch =>
    simp only [applyOp, activate] at h'
    cases hw : wget w k0 with
    | none =>
      rw [hw] at h'
      left
      rw [h] at h'
      exact (Option.some_inj.mp h').symm ▸ rfl
    | some e0 =>
      rw [hw] at h'
      by_cases hkk : k0 = k
      · subst hkk
        rw [wget_wset_self] at h'
        right; left
        refine ⟨?_, now, patch, rfl⟩
        rw [← Option.some_inj.mp h']
      · rw [wget_wset_ne _ _ _ _ (fun hh => hkk hh.symm)] at h'
        left
        rw [h] at h'
        exact (Option.some_inj.mp h').symm ▸ rfl
  | rej now k0 reason =>
    simp only [applyOp, reject] at h'
    cases hw : wget w k0 with
    | none =>
      rw [hw] at h'
      left
      rw [h] at h'
      exact (Option.some_inj.mp h').symm ▸ rfl
    | some e0 =>
      rw [hw] at h'
      by_cases hkk : k0 = k
      · subst hkk
        rw [wget_wset_self] at h'
        right; right
        refine ⟨?_, now, reason, rfl⟩
        rw [← Option.some_inj.mp h']
      · rw [wget_wset_ne _ _ _ _ (fun hh => hkk hh.symm)] at h'
        left
        rw [h] at h'
        exact (Option.some_inj.mp h').symm ▸ rfl
  | pat now k0 patch =>
    simp only [applyOp, patchMeta] at h'
    cases hw : wget w k0 with
    | none =>
      rw [hw] at h'
      left
      rw [h] at h'
      exact (Option.some_inj.mp h').symm ▸ rfl
    | some e0 =>
      rw [hw] at h'
      by_cases hkk : k0 = k
      · subst hkk
        rw [wget_wset_self] at h'
        left
        rw [h] at hw
        rw [← Option.some_inj.mp h', Option.some_inj.mp hw]
      · rw [wget_wset_ne _ _ _ _ (fun hh => hkk hh.symm)] at h'
        left
        rw [h] at h'
        exact (Option.some_inj.mp h').symm ▸ rfl

/-- C1 (witness): the amended theorem applied to the concrete rejection of
the pending entry `e1ce`. -/
theorem c1_status_change_witness :
    e1rej.status = e1ce.status
    ∨ (e1rej.status = .active ∧ ∃ now patch, WOp.rej 3 k1ce "liq" = .act now k1ce patch)
    ∨ (e1rej.status = .rejected ∧ ∃ now r, WOp.rej 3 k1ce "liq" = .rej now k1ce r) :=
  c1_status_change_only_via_activate_or_reject w1a (WOp.rej 3 k1ce "liq")
    k1ce e1ce e1rej (by decide) (by decide)

/-- C10: calling `activate`, `reject` or `patchMeta` with a key that has no
entry leaves the whole store unchanged (no entry is created, nothing is
thrown, nothing is mutated). -/
theorem c10_missing_key_noop (w : WStore) (now : ℕ) (k : String)
    (patch : Option WMetaPatch) (mpatch : WMetaPatch) (reason : String)
    (h : wget w k = none) :
    activate w now k patch = w
    ∧ reject w now k reason = w
    ∧ patchMeta w now k mpatch = w := by
  refine ⟨?_, ?_, ?_⟩ <;> simp [activate, reject, patchMeta, h]

/-- C10 (witness): the no-op theorem applied to a key absent from the
singleton store `w1a`. -/
theorem c10_missing_key_noop_witness :
    activate w1a 9 "BSC:v2:0x9999" none = w1a
    ∧ reject w1a 9 "BSC:v2:0x9999" "r" = w1a
    ∧ patchMeta w1a 9 "BSC:v2:0x9999" WMetaPatch.empty = w1a :=
  c10_missing_key_noop w1a 9 "BSC:v2:0x9999" none WMetaPatch.empty "r" (by decide)

/-! ## Gate pipeline: bytecode check (C2) -/

/-- C2 (counterexample): `runGates` — the pipeline that performs the
watchlist transitions — never consults the bytecode oracle: in `envC2` the
meme token (`token1`) has empty on-chain code, yet the candidate is
transitioned to `active`. -/
theorem c2_counterexample :
    envC2.hasCode memeAddr = false
    ∧ (wget (runGates defaultStrategy envC2 .BSC .v2 pairAddr wbnbLower
        memeAddr 1 w1a) k1ce).map WEntry.status = some WStatus.active := by
  constructor <;> decide

/-- C2 (amended): the `passSafetyGates` aggregate does run the
bytecode-presence check first: whenever the pair/pool, `token0` or `token1`
has empty on-chain code it returns `ok = false` and short-circuits before
consulting the liquidity result (the returned context carries no liquidity);
however the `runGates` routine that actually transitions Watchlist entries
omits the bytecode (and tax) checks, so such a candidate can still be
activated, as the counterexample shows. -/
theorem c2_bytecode_gate_short_circuits (S : Strategy) (env : PipelineEnv)
    (chain : Chain) (mtype : MType) (addr token0 token1 : Addr)
    (h : (env.hasCode addr && env.hasCode token0 && env.hasCode token1)
      = false) :
    (passSafetyGates S env chain mtype addr token0 token1).ok = false
    ∧ (passSafetyGates S env chain mtype addr token0 token1).liquidityUsd
      = none := by
  unfold passSafetyGates
  simp only [h]
  simp

/-- C2 (witness): the short-circuit theorem applied to `envC2`, whose
`token1` has empty code. -/
theorem c2_bytecode_gate_witness :
    (envC2.hasCode pairAddr && envC2.hasCode wbnbLower
      && envC2.hasCode memeAddr) = false
    ∧ (passSafetyGates defaultStrategy envC2 .BSC .v2 pairAddr wbnbLower
        memeAddr).ok = false
    ∧ (passSafetyGates defaultStrategy envC2 .BSC .v2 pairAddr wbnbLower
        memeAddr).liquidityUsd = none :=
  ⟨by decide,
   (c2_bytecode_gate_short_circuits defaultStrategy envC2 .BSC .v2 pairAddr
     wbnbLower memeAddr (by decide)).1,
   (c2_bytecode_gate_short_circuits defaultStrategy envC2 .BSC .v2 pairAddr
     wbnbLower memeAddr (by decide)).2⟩

/-! ## V2 sellability (C3) -/

/-- The code's probe amount agrees with the specification's
`10^max(0, decimals−6)` with floor 1. -/
theorem sellBaseAmt_eq_specProbeAmt (env : SellEnv) (token : Addr) :
    sellBaseAmt env token = specProbeAmt (env.decimals token) := by
  unfold sellBaseAmt specProbeAmt
  by_cases h : 6 < env.decimals token
  · rw [if_pos h]
    have h1 : (0 : ℤ) ≤ (env.decimals token : ℤ) - 6 := by omega
    rw [max_eq_right h1]
    have h2 : (((env.decimals token : ℤ)) - 6).toNat = env.decimals token - 6 := by
      omega
    rw [h2, max_eq_right (Nat.one_le_pow _ _ (by norm_num))]
  · rw [if_neg h]
    have h1 : ((env.decimals token : ℤ)) - 6 ≤ 0 := by omega
    rw [max_eq_left h1]
    simp

/-- The sanity base-USD quote of the sellability check can never be
missing: `pickBase` always selects the chain's USDT entry, and when the
aggregator is unavailable `getBaseTokenUsd`'s stablecoin fallback returns
1 USD for it. -/
theorem getBaseTokenUsd_pickBase_isSome (c : Chain) (api : Addr → Option ℚ) :
    (getBaseTokenUsd c api (pickBase c)).isSome = true := by
  unfold getBaseTokenUsd
  cases h : api (pickBase c) with
  | some v => rfl
  | none => cases c <;> decide

/-- C3: the V2 sellability check passes whenever some 1-hop `token → base`
or 2-hop `token → mid → dst` path over the base-token set in priority order
yields a strictly positive `getAmountsOut` output for the probe amount
`10^max(0, decimals−6)` (floor 1) — equivalently, it rejects only when no
such path yields a positive quote.  (The "no base USD quote" branch is
unreachable: `pickBase` is the USDT entry and the stablecoin fallback of
`getBaseTokenUsd` supplies 1 when the aggregator is down.) -/
theorem c3_sellability_passes_on_positive_path (chain : Chain) (env : SellEnv)
    (token : Addr)
    (hp : ∃ p, (p ∈ oneHopPaths chain token ∨ p ∈ twoHopPaths chain token)
      ∧ pathPositive env (specProbeAmt (env.decimals token)) p) :
    (checkSellabilityV2 chain env token).ok = true := by
  unfold checkSellabilityV2
  by_cases hb : isBaseToken chain token = true
  · simp [hb]
  · obtain ⟨usd, husd⟩ := Option.isSome_iff_exists.mp
      (getBaseTokenUsd_pickBase_isSome chain env.fromApi)
    rw [if_neg hb, husd]
    cases hh1 : sellHop1 chain env token with
    | some path => simp
    | none =>
      cases hh2 : sellHop2 chain env token with
      | some path => simp
      | none =>
        exfalso
        obtain ⟨p, hmem, out, hout, hlen, hpos⟩ := hp
        rw [← sellBaseAmt_eq_specProbeAmt] at hout
        rcases hmem with h1 | h2
        · obtain ⟨b, hbmem, rfl⟩ := List.mem_map.mp h1
          have hnone := (List.findSome?_eq_none_iff.mp hh1) b hbmem
          simp only at hnone
          rw [if_pos ?_] at hnone
          · exact Option.some_ne_none _ hnone
          · simp only [posOut, hout]
            simp only [List.length_cons, List.length_nil] at hlen
            simp [hlen]
            simpa using hpos
        · obtain ⟨mid, hmidmem, hmap⟩ := List.mem_flatMap.mp h2
          obtain ⟨dst, hdstmem, rfl⟩ := List.mem_map.mp hmap
          obtain ⟨hmidbase, hmidne⟩ := List.mem_filter.mp hmidmem
          obtain ⟨hdstbase, hdstne⟩ := List.mem_filter.mp hdstmem
          have hnone := (List.findSome?_eq_none_iff.mp hh2) mid hmidbase
          rw [if_neg (by simpa using hmidne)] at hnone
          have hnone2 := (List.findSome?_eq_none_iff.mp hnone) dst hdstbase
          rw [if_neg (by simpa using hdstne)] at hnone2
          simp only at hnone2
          rw [if_pos ?_] at hnone2
          · exact Option.some_ne_none _ hnone2
          · simp only [posOut, hout]
            simp only [List.length_cons, List.length_nil] at hlen
            simp [hlen]
            simpa using hpos

/-- C3 (witness): the theorem applied to `env3ok`, whose aggregator is down
(the USDT fallback supplies the sanity quote) and whose 1-hop route
`meme → WBNB` quotes positively. -/
theorem c3_sellability_witness :
    (checkSellabilityV2 Chain.BSC env3ok memeAddr).ok = true :=
  c3_sellability_passes_on_positive_path Chain.BSC env3ok memeAddr
    ⟨[memeAddr, wbnbAddr], Or.inl (by decide),
     [1000000000000, 3000000], by decide, by decide, by decide⟩

/-! ## Alert evaluator (C4, C5, C6) -/

theorem score_formula (b v f w : Bool) (m : ℕ) :
    ((if b then 2 else 0) + (if v then 2 else 0) + (if f then 2 else 0) +
      (if w then 3 else 0) + m)
    = 2 * b.toNat + 2 * v.toNat + 2 * f.toNat + 3 * w.toNat + m := by
  cases b <;> cases v <;> cases f <;> cases w <;> simp [Bool.toNat]

theorem verdict_formula (s : ℕ) (c : Prop) [Decidable c] :
    (((if 6 ≤ s ∧ c then ALevel.strong
       else if 3 ≤ s then ALevel.normal else ALevel.noAlert) = ALevel.strong)
      ↔ (6 ≤ s ∧ c))
    ∧ (((if 6 ≤ s ∧ c then ALevel.strong
         else if 3 ≤ s then ALevel.normal else ALevel.noAlert) = ALevel.normal)
        ↔ (¬(6 ≤ s ∧ c) ∧ 3 ≤ s))
    ∧ (((if 6 ≤ s ∧ c then ALevel.strong
         else if 3 ≤ s then ALevel.normal else ALevel.noAlert) = ALevel.noAlert)
        ↔ (¬(6 ≤ s ∧ c) ∧ ¬ 3 ≤ s)) := by
  by_cases h1 : 6 ≤ s ∧ c <;> by_cases h2 : 3 ≤ s <;> simp [h1, h2]

/-- C4: the score equals
`2·[buy] + 2·[volumeBurst] + 2·[fdvBurst] + 3·[whale] + [mint bonus]`, and
the verdict is `strong` iff `score ≥ 6` and (whale or (volumeBurst and
fdvBurst)), else `normal` iff `score ≥ 3`, else none. -/
theorem c4_alert_score_and_verdict (S : Strategy) (p : AlertIn) :
    ((evaluateAlertsCore S p).score
      = 2 * (evaluateAlertsCore S p).hitBuy.toNat
        + 2 * (evaluateAlertsCore S p).hitVel.toNat
        + 2 * (evaluateAlertsCore S p).hitFdv.toNat
        + 3 * (evaluateAlertsCore S p).hitWhale.toNat
        + (if S.minLiqUsd * (6 / 5) ≤ p.lastMintUsd.getD 0 then 1 else 0))
    ∧ (((evaluateAlertsCore S p).level = ALevel.strong)
        ↔ (6 ≤ (evaluateAlertsCore S p).score
           ∧ ((evaluateAlertsCore S p).hitWhale = true
              ∨ ((evaluateAlertsCore S p).hitVel = true
                 ∧ (evaluateAlertsCore S p).hitFdv = true))))
    ∧ (((evaluateAlertsCore S p).level = ALevel.normal)
        ↔ (¬(6 ≤ (evaluateAlertsCore S p).score
             ∧ ((evaluateAlertsCore S p).hitWhale = true
                ∨ ((evaluateAlertsCore S p).hitVel = true
                   ∧ (evaluateAlertsCore S p).hitFdv = true)))
           ∧ 3 ≤ (evaluateAlertsCore S p).score))
    ∧ (((evaluateAlertsCore S p).level = ALevel.noAlert)
        ↔ (¬(6 ≤ (evaluateAlertsCore S p).score
             ∧ ((evaluateAlertsCore S p).hitWhale = true
                ∨ ((evaluateAlertsCore S p).hitVel = true
                   ∧ (evaluateAlertsCore S p).hitFdv = true)))
           ∧ ¬ 3 ≤ (evaluateAlertsCore S p).score)) := by
  unfold evaluateAlertsCore
  dsimp only
  exact ⟨score_formula _ _ _ _ _, (verdict_formula _ _).1,
    (verdict_formula _ _).2.1, (verdict_formula _ _).2.2⟩

/-- C5: the whale signal fires iff the trade is a buy and either the
trade-to-liquidity ratio condition holds (both values defined, liquidity
positive) or the buyer's single-buy USD reaches the threshold; it never
fires for a non-buy trade (threshold positive, as in all documented
configurations). -/
theorem c5_whale_iff (S : Strategy) (p : AlertIn)
    (hS : 0 < S.whaleSingleBuyUsd) :
    ((evaluateAlertsCore S p).hitWhale = true
      ↔ (p.lastTradeIsBuy = true
         ∧ ((∃ u l, p.lastTradeUsd = some u ∧ p.liquidityUsd = some l
              ∧ 0 < l ∧ S.whaleLiqRatio ≤ u / l)
            ∨ (∃ b, p.lastTradeBuyerUsd = some b
                ∧ S.whaleSingleBuyUsd ≤ b))))
    ∧ (p.lastTradeIsBuy = false → (evaluateAlertsCore S p).hitWhale = false) := by
  have hS' : ¬ (S.whaleSingleBuyUsd ≤ (0 : ℚ)) := not_le.mpr hS
  unfold evaluateAlertsCore
  dsimp only
  refine ⟨?_, ?_⟩
  · cases hb : p.lastTradeIsBuy with
    | false => simp [hb]
    | true =>
      cases hu : p.lastTradeUsd with
      | none =>
        cases hbuy : p.lastTradeBuyerUsd with
        | none => simp [hb, hu, hbuy, hS']
        | some bb => simp [hb, hu, hbuy]
      | some u =>
        cases hl : p.liquidityUsd with
        | none =>
          cases hbuy : p.lastTradeBuyerUsd with
          | none => simp [hb, hu, hl, hbuy, hS']
          | some bb => simp [hb, hu, hl, hbuy]
        | some l =>
          by_cases h0 : (0 : ℚ) < l
          · cases hbuy : p.lastTradeBuyerUsd with
            | none => simp [hb, hu, hl, h0, hbuy, hS']
            | some bb => simp [hb, hu, hl, h0, hbuy]
          · cases hbuy : p.lastTradeBuyerUsd with
            | none => simp [hb, hu, hl, h0, hbuy, hS']
            | some bb => simp [hb, hu, hl, h0, hbuy]
  · intro hb
    simp [hb]

/-- C5 (witness): a 4000 USD buy into a 100000 USD pool crosses the 3 %
liquidity ratio, so the whale signal fires under the default strategy. -/
theorem c5_whale_iff_witness :
    (evaluateAlertsCore defaultStrategy whaleIn).hitWhale = true :=
  (c5_whale_iff defaultStrategy whaleIn (by norm_num [defaultStrategy])).1.mpr
    ⟨rfl, Or.inl ⟨4000, 100000, rfl, rfl, by norm_num,
      by norm_num [defaultStrategy, whaleIn]⟩⟩

/-- The baseline is never negative. -/
theorem baseline_nonneg (now : ℕ) (evs : List TradeEvent) :
    0 ≤ baselineAvgPerMin now evs := by
  unfold baselineAvgPerMin
  dsimp only
  rw [rmax_eq_max]
  exact div_nonneg (le_max_left _ _) (by norm_num)

/-- C6: the volume-burst signal fires iff
`totalUsd_1m / baselineAvgPerMin ≥ VOLUME_MULTIPLIER`, where the ratio is
treated as `+∞` — and the signal therefore fires — whenever the baseline
equals 0. -/
theorem c6_volume_burst_iff (S : Strategy) (now : ℕ) (evs : List TradeEvent) :
    (hitVelOf S (getVolumeMultiplier now evs) = true)
    ↔ (baselineAvgPerMin now evs = 0
       ∨ S.volumeMultiplier
         ≤ (oneMinute now evs).totalUsd / baselineAvgPerMin now evs) := by
  have hb := baseline_nonneg now evs
  unfold getVolumeMultiplier
  dsimp only
  by_cases h : baselineAvgPerMin now evs ≤ 0
  · have h0 : baselineAvgPerMin now evs = 0 := le_antisymm h hb
    simp [h, hitVelOf, h0]
  · have h0 : baselineAvgPerMin now evs ≠ 0 := fun he => h (le_of_eq he)
    simp [h, hitVelOf, h0]

/-! ## Slot budget (C7) -/

theorem registerCandidate_subs (now : ℕ) (st : IngressState) (c : Candidate) :
    (registerCandidate now st c).subs = st.subs := by
  unfold registerCandidate
  split <;> rfl

theorem ensureMarket_subs_length_le (maxA now : ℕ) (st : IngressState)
    (c : Candidate) (h : st.subs.length ≤ maxA) :
    (ensureMarket maxA now st c).subs.length ≤ maxA := by
  unfold ensureMarket
  dsimp only
  split
  · rw [registerCandidate_subs]; exact h
  · split
    · rename_i h1 h2
      unfold hasCapacity at h2
      rw [registerCandidate_subs] at h2
      simp only [decide_eq_true_eq] at h2
      simp [registerCandidate_subs]
      omega
    · rw [registerCandidate_subs]; exact h

theorem runIngress_aux (maxA : ℕ) (tr : List (ℕ × Candidate)) :
    ∀ st : IngressState, st.subs.length ≤ maxA →
      (tr.foldl (fun s q => ensureMarket maxA q.1 s q.2) st).subs.length
        ≤ maxA := by
  induction tr with
  | nil => intro st h; exact h
  | cons hd tl ih =>
    intro st h
    exact ih _ (ensureMarket_subs_length_le _ _ _ _ h)

/-- C7: the number of per-market subscriptions never exceeds
`MAX_ACTIVE_MARKETS` along any ingress trace, and when the budget is
exhausted a candidate is still registered in the Watchlist (and its gates
launched, when new) but no subscription is started. -/
theorem c7_slot_budget (maxA : ℕ) (tr : List (ℕ × Candidate)) :
    (runIngress maxA tr).subs.length ≤ maxA
    ∧ ∀ (st : IngressState) (now : ℕ) (c : Candidate),
        hasCapacity maxA st = false →
        ((ensureMarket maxA now st c).subs = st.subs
         ∧ (wget (ensureMarket maxA now st c).watch (candKey c)).isSome = true
         ∧ (wget st.watch (candKey c) = none →
             candKey c ∈ (ensureMarket maxA now st c).gates)) := by
  constructor
  · exact runIngress_aux maxA tr initIngress (by simp [initIngress])
  · intro st now c hcap
    have hcap1 : hasCapacity maxA (registerCandidate now st c) = false := by
      unfold hasCapacity at hcap ⊢
      rw [registerCandidate_subs]
      exact hcap
    have hres : ensureMarket maxA now st c = registerCandidate now st c := by
      unfold ensureMarket
      dsimp only
      by_cases h1 : subKeyOf c ∈ (registerCandidate now st c).subs
      · simp [h1]
      · simp [h1, hcap1]
    rw [hres, registerCandidate_subs]
    refine ⟨rfl, ?_, ?_⟩
    · unfold registerCandidate
      by_cases h2 : (wget st.watch (candKey c)).isSome = true
      · simp [h2]
      · simp only [h2, Bool.false_eq_true, reduceIte]
        show (wget (enqueueNew st.watch now
          ⟨c.chain, c.mtype, lower c.addr, lower c.token0, lower c.token1,
            c.fee⟩) (candKey c)).isSome = true
        unfold enqueueNew candKey
        dsimp only
        simp only [candKey] at h2
        simp only [h2, Bool.false_eq_true, reduceIte]
        rw [wget_wset_self]
        rfl
    · intro habs
      unfold registerCandidate
      have h2 : (wget st.watch (candKey c)).isSome = false := by
        rw [habs]; rfl
      simp [h2]

/-- C7 (witness): with a single slot already taken, a fresh candidate is
registered but the subscription set stays unchanged. -/
theorem c7_slot_budget_witness :
    hasCapacity 1 stFull = false
    ∧ (ensureMarket 1 5 stFull candW).subs = stFull.subs
    ∧ (wget (ensureMarket 1 5 stFull candW).watch (candKey candW)).isSome
      = true :=
  ⟨by decide,
   ((c7_slot_budget 1 []).2 stFull 5 candW (by decide)).1,
   ((c7_slot_budget 1 []).2 stFull 5 candW (by decide)).2.1⟩

/-! ## Tax estimator (C9) -/

theorem clamp01_nonneg (x : ℚ) : 0 ≤ clamp01 x := by
  unfold clamp01
  rw [rmax_eq_max]
  exact le_max_left 0 _

theorem clamp01_le_one (x : ℚ) : clamp01 x ≤ 1 := by
  unfold clamp01
  rw [rmax_eq_max, rmin_eq_min]
  exact max_le (by norm_num) (min_le_left 1 _)

/-- C9: every tax value stored by `recordTaxApprox` lies in `[0, 1]` and
equals `clamp(0, 1, 1 − observed / max(expected, ε))` where the expected
output comes from the pool's direction-appropriate mid price, for every
direction and amounts. -/
theorem c9_tax_sample_clamped (now : ℕ) (p : TaxRecParams) (s : TaxSample)
    (v : ℚ) (h : recordTaxApprox now p = some s)
    (hv : s.buyTax = some v ∨ s.sellTax = some v) :
    0 ≤ v ∧ v ≤ 1
    ∧ ∃ rel a o, p.rel = some rel ∧ taxInAmt p = some a ∧ taxObsAmt p = some o
        ∧ v = clamp01 (1 - o / rmax (a * taxMid rel p.direction) taxEps) := by
  obtain ⟨orel, dir, tin, bout, bin⟩ := p
  cases orel with
  | none => simp [recordTaxApprox] at h
  | some rel =>
    cases dir with
    | sellToken0 =>
      cases tin with
      | none => simp [recordTaxApprox] at h
      | some a =>
        cases bout with
        | none => simp [recordTaxApprox] at h
        | some o =>
          simp only [recordTaxApprox, Option.some.injEq] at h
          subst h
          rcases hv with hv | hv
          · simp at hv
          · have hv' : v = clamp01 (1 - o / rmax (a * rel.p1in0) taxEps) := by
              simpa using hv.symm
            subst hv'
            exact ⟨clamp01_nonneg _, clamp01_le_one _,
              rel, a, o, rfl, rfl, rfl, rfl⟩
    | sellToken1 =>
      cases tin with
      | none => simp [recordTaxApprox] at h
      | some a =>
        cases bout with
        | none => simp [recordTaxApprox] at h
        | some o =>
          simp only [recordTaxApprox, Option.some.injEq] at h
          subst h
          rcases hv with hv | hv
          · simp at hv
          · have hv' : v = clamp01 (1 - o / rmax (a * rel.p0in1) taxEps) := by
              simpa using hv.symm
            subst hv'
            exact ⟨clamp01_nonneg _, clamp01_le_one _,
              rel, a, o, rfl, rfl, rfl, rfl⟩
    | buyToken0 =>
      cases bin with
      | none => simp [recordTaxApprox] at h
      | some a =>
        cases tin with
        | none => simp [recordTaxApprox] at h
        | some o =>
          simp only [recordTaxApprox, Option.some.injEq] at h
          subst h
          rcases hv with hv | hv
          · have hv' : v = clamp01 (1 - o / rmax (a * (1 / rel.p1in0)) taxEps) := by
              simpa using hv.symm
            subst hv'
            exact ⟨clamp01_nonneg _, clamp01_le_one _,
              rel, a, o, rfl, rfl, rfl, rfl⟩
          · simp at hv
    | buyToken1 =>
      cases bin with
      | none => simp [recordTaxApprox] at h
      | some a =>
        cases tin with
        | none => simp [recordTaxApprox] at h
        | some o =>
          simp only [recordTaxApprox, Option.some.injEq] at h
          subst h
          rcases hv with hv | hv
          · have hv' : v = clamp01 (1 - o / rmax (a * (1 / rel.p0in1)) taxEps) := by
              simpa using hv.symm
            subst hv'
            exact ⟨clamp01_nonneg _, clamp01_le_one _,
              rel, a, o, rfl, rfl, rfl, rfl⟩
          · simp at hv

/-- C9 (witness): the clamp theorem applied to the concrete sell sample
`taxP` (expected 30, observed 15, tax 1/2). -/
theorem c9_tax_sample_witness :
    recordTaxApprox 100 taxP = some taxS
    ∧ (0 ≤ clamp01 (1 - 15 / rmax (10 * 3) taxEps)
       ∧ clamp01 (1 - 15 / rmax (10 * 3) taxEps) ≤ 1
       ∧ ∃ rel a o, taxP.rel = some rel ∧ taxInAmt taxP = some a
           ∧ taxObsAmt taxP = some o
           ∧ clamp01 (1 - 15 / rmax (10 * 3) taxEps)
             = clamp01 (1 - o / rmax (a * taxMid rel taxP.direction) taxEps)) :=
  ⟨rfl, c9_tax_sample_clamped 100 taxP taxS _ rfl (Or.inr rfl)⟩

/-! ## Window freshness (C8) -/

theorem aggLoop_filter_of_sorted (start : ℕ) (a : WinAgg)
    (l : List TradeEvent) (h : l.Pairwise fun x y => y.ts ≤ x.ts) :
    aggLoop start a l
      = aggLoop start a (l.filter fun e => decide (start ≤ e.ts)) := by
  induction l generalizing a with
  | nil => rfl
  | cons e rest ih =>
    obtain ⟨he, hrest⟩ := List.pairwise_cons.mp h
    by_cases hc : e.ts < start
    · have hfe : (fun e : TradeEvent => decide (start ≤ e.ts)) e = false := by
        simp only [decide_eq_false_iff_not]
        omega
      have hrestnil : rest.filter (fun e => decide (start ≤ e.ts)) = [] := by
        rw [List.filter_eq_nil_iff]
        intro x hx
        have := he x hx
        simp only [decide_eq_true_eq]
        omega
      rw [List.filter_cons_of_neg (by simpa using hfe), hrestnil]
      simp [aggLoop, hc]
    · have hfe : (fun e : TradeEvent => decide (start ≤ e.ts)) e = true := by
        simp only [decide_eq_true_eq]
        omega
      rw [List.filter_cons_of_pos (by simpa using hfe)]
      simp only [aggLoop, if_neg hc]
      exact ih (aggStep a e) hrest

theorem aggregateWithin_filter (ms now : ℕ) (evs : List TradeEvent)
    (h : evs.Pairwise fun x y => x.ts ≤ y.ts) :
    aggregateWithin ms now evs
      = aggregateWithin ms now
          (evs.filter fun e => decide (now - ms ≤ e.ts)) := by
  unfold aggregateWithin
  rw [aggLoop_filter_of_sorted _ _ _ (List.pairwise_reverse.mpr h),
    List.filter_reverse]

theorem prune_eq_filter (keep now : ℕ) (evs : List TradeEvent)
    (h : evs.Pairwise fun x y => x.ts ≤ y.ts) :
    prune keep now evs = evs.filter fun e => decide (now - keep ≤ e.ts) := by
  unfold prune
  induction evs with
  | nil => rfl
  | cons e rest ih =>
    obtain ⟨he, hrest⟩ := List.pairwise_cons.mp h
    by_cases hc : e.ts < now - keep
    · rw [List.dropWhile_cons_of_pos (by simpa using hc),
        List.filter_cons_of_neg (by simp; omega)]
      exact ih hrest
    · rw [List.dropWhile_cons_of_neg (by simpa using hc),
        List.filter_cons_of_pos (by simp; omega)]
      congr 1
      symm
      rw [List.filter_eq_self]
      intro x hx
      have := he x hx
      simp only [decide_eq_true_eq]
      omega

theorem oneMinute_canon (now : ℕ) (evs : List TradeEvent)
    (h : evs.Pairwise fun x y => x.ts ≤ y.ts) :
    oneMinute now evs
      = aggregateWithin 60000 now
          (evs.filter fun e => decide (now - 600000 ≤ e.ts)
            && decide (now - 60000 ≤ e.ts)) := by
  unfold oneMinute
  rw [prune_eq_filter _ _ _ h, aggregateWithin_filter _ _ _ (h.filter _),
    List.filter_filter]
  apply congrArg
  apply List.filter_congr
  intro e _
  simp [keepMs, Bool.and_comm]

theorem tenMinutesTotal_canon (now : ℕ) (evs : List TradeEvent)
    (h : evs.Pairwise fun x y => x.ts ≤ y.ts) :
    tenMinutesTotal now evs
      = (aggregateWithin 600000 now
          (evs.filter fun e => decide (now - 600000 ≤ e.ts))).totalUsd := by
  unfold tenMinutesTotal
  rw [prune_eq_filter _ _ _ h, aggregateWithin_filter _ _ _ (h.filter _),
    List.filter_filter]
  apply congrArg
  apply congrArg
  apply List.filter_congr
  intro e _
  simp [keepMs]

/-- C8: with per-market timestamps delivered in non-decreasing order, every
sliding-window query at wall time `now` is insensitive to the events older
than its horizon: dropping events with `ts < now − 60000` leaves
`oneMinute` unchanged, and dropping events with `ts < now − 600000` leaves
`oneMinute`, `tenMinutesTotal` and `baselineAvgPerMin` unchanged — so no
event older than 600 000 ms contributes to any query result. -/
theorem c8_window_freshness (now : ℕ) (evs : List TradeEvent)
    (h : evs.Pairwise fun x y => x.ts ≤ y.ts) :
    (oneMinute now evs
      = oneMinute now (evs.filter fun e => decide (now - 60000 ≤ e.ts)))
    ∧ (oneMinute now evs
        = oneMinute now (evs.filter fun e => decide (now - 600000 ≤ e.ts)))
    ∧ (tenMinutesTotal now evs
        = tenMinutesTotal now
            (evs.filter fun e => decide (now - 600000 ≤ e.ts)))
    ∧ (baselineAvgPerMin now evs
        = baselineAvgPerMin now
            (evs.filter fun e => decide (now - 600000 ≤ e.ts))) := by
  have hsub6 : now - 600000 ≤ now - 60000 := by omega
  have h60 : (evs.filter fun e => decide (now - 60000 ≤ e.ts)).Pairwise
      (fun x y : TradeEvent => x.ts ≤ y.ts) := h.filter _
  have h600 : (evs.filter fun e => decide (now - 600000 ≤ e.ts)).Pairwise
      (fun x y : TradeEvent => x.ts ≤ y.ts) := h.filter _
  have hone60 : oneMinute now evs
      = oneMinute now (evs.filter fun e => decide (now - 60000 ≤ e.ts)) := by
    rw [oneMinute_canon _ _ h, oneMinute_canon _ _ h60, List.filter_filter]
    apply congrArg
    apply List.filter_congr
    intro e _
    by_cases hp : now - 60000 ≤ e.ts
    · have hq : now - 600000 ≤ e.ts := le_trans hsub6 hp
      simp [hp, hq]
    · simp [hp]
  have hone600 : oneMinute now evs
      = oneMinute now (evs.filter fun e => decide (now - 600000 ≤ e.ts)) := by
    rw [oneMinute_canon _ _ h, oneMinute_canon _ _ h600, List.filter_filter]
    apply congrArg
    apply List.filter_congr
    intro e _
    by_cases hp : now - 600000 ≤ e.ts
    · simp [hp]
    · simp [hp]
  have hten : tenMinutesTotal now evs
      = tenMinutesTotal now
          (evs.filter fun e => decide (now - 600000 ≤ e.ts)) := by
    rw [tenMinutesTotal_canon _ _ h, tenMinutesTotal_canon _ _ h600,
      List.filter_filter]
    apply congrArg
    apply congrArg
    apply List.filter_congr
    intro e _
    by_cases hp : now - 600000 ≤ e.ts
    · simp [hp]
    · simp [hp]
  refine ⟨hone60, hone600, hten, ?_⟩
  unfold baselineAvgPerMin
  dsimp only
  rw [hten, hone600]

/-- C8 (witness): the freshness theorem applied to the concrete sorted
history `evsW` at `now = 700000`. -/
theorem c8_window_freshness_witness :
    evsW.Pairwise (fun a b => a.ts ≤ b.ts)
    ∧ oneMinute 700000 evsW
      = oneMinute 700000
          (evsW.filter fun e => decide (700000 - 60000 ≤ e.ts)) :=
  ⟨by decide, (c8_window_freshness 700000 evsW (by decide)).1⟩

end MemeAlert
